import Mathlib

/-!
Verification development for the TURN relay core: the router node table
(src/turn/src/router/nodes.rs), the create permission processor
(src/turn/src/processor/create_permission.rs) and the proxy fabric client
(src/turn-proxy/src/lib.rs), shallowly embedded in Lean. Machine integers
are modelled as natural numbers (no arithmetic that could overflow occurs
in the embedded code), hash maps and sets as association lists with
first-match lookup, and the monotonic clock as an explicit natural number
parameter `now` measured in seconds.
-/

namespace Mystical

/-- Socket address: an IP (abstracted, only compared for equality) and a port. -/
structure SocketAddr where
  ip : Nat
  port : Nat
deriving DecidableEq

/-- Turn node session, mirroring struct Node in nodes.rs: mark, channel list,
port list, lifetime timer reference, lifetime in seconds, 16-byte secret
(modelled as a byte list), username and password. -/
structure Node where
  mark : Nat
  channels : List Nat
  ports : List Nat
  timer : Nat
  lifetime : Nat
  secret : List Nat
  username : String
  password : String
deriving DecidableEq

/-- Node construction (Node::new): empty channel and port lists, timer set to
the current instant (passed explicitly as `now`), lifetime 600. -/
def Node.new (mark : Nat) (username : String) (secret : List Nat)
    (password : String) (now : Nat) : Node :=
  ⟨mark, [], [], now, 600, secret, username, password⟩

/-- Node::set_lifetime: store the delay as the lifetime and reset the timer to
the current instant. -/
def Node.set_lifetime (n : Node) (delay : Nat) (now : Nat) : Node :=
  { n with lifetime := delay, timer := now }

/-- Node::is_death: the elapsed whole seconds since the timer reach the
lifetime. `timer.elapsed().as_secs()` is `now - timer`. -/
def Node.is_death (n : Node) (now : Nat) : Bool :=
  decide (n.lifetime ≤ now - n.timer)

/-- Node::get_secret. -/
def Node.get_secret (n : Node) : List Nat :=
  n.secret

/-- Node::push_port: append the port unless already present. -/
def Node.push_port (n : Node) (port : Nat) : Node :=
  if port ∈ n.ports then n else { n with ports := n.ports ++ [port] }

/-- Node::push_channel: append the channel unless already present. -/
def Node.push_channel (n : Node) (channel : Nat) : Node :=
  if channel ∈ n.channels then n else { n with channels := n.channels ++ [channel] }

/-- Lookup in the node map (AHashMap modelled as an association list with
first-match semantics). -/
def mapLookup : List (SocketAddr × Node) → SocketAddr → Option Node
  | [], _ => none
  | (k, v) :: rest, a => if k = a then some v else mapLookup rest a

/-- Insert into the node map: replace the first entry at the key, else append. -/
def mapInsert : List (SocketAddr × Node) → SocketAddr → Node → List (SocketAddr × Node)
  | [], a, n => [(a, n)]
  | (k, v) :: rest, a, n =>
    if k = a then (a, n) :: rest else (k, v) :: mapInsert rest a n

/-- Remove from the node map: drop the first entry at the key. -/
def mapRemove : List (SocketAddr × Node) → SocketAddr → List (SocketAddr × Node)
  | [], _ => []
  | (k, v) :: rest, a => if k = a then rest else (k, v) :: mapRemove rest a

/-- AHashSet insert, modelled on lists: append unless present. -/
def setInsert (s : List SocketAddr) (a : SocketAddr) : List SocketAddr :=
  if a ∈ s then s else s ++ [a]

/-- Lookup in the username index (BTreeMap modelled as an association list). -/
def addrsLookup : List (String × List SocketAddr) → String → Option (List SocketAddr)
  | [], _ => none
  | (k, v) :: rest, u => if k = u then some v else addrsLookup rest u

/-- The `entry(u).or_insert(empty).insert(a)` operation of Nodes::insert on
the username index. -/
def addrsInsert : List (String × List SocketAddr) → String → SocketAddr → List (String × List SocketAddr)
  | [], u, a => [(u, [a])]
  | (k, v) :: rest, u, a =>
    if k = u then (k, setInsert v a) :: rest else (k, v) :: addrsInsert rest u a

/-- Remove a whole entry from the username index. -/
def addrsRemoveEntry : List (String × List SocketAddr) → String → List (String × List SocketAddr)
  | [], _ => []
  | (k, v) :: rest, u => if k = u then rest else (k, v) :: addrsRemoveEntry rest u

/-- Replace the address set stored under a username. -/
def addrsSetValue : List (String × List SocketAddr) → String → List SocketAddr → List (String × List SocketAddr)
  | [], _, _ => []
  | (k, v) :: rest, u, w =>
    if k = u then (k, w) :: rest else (k, v) :: addrsSetValue rest u w

/-- Node table (struct Nodes): the address-keyed node map and the
username-to-addresses index. -/
structure Nodes where
  map : List (SocketAddr × Node)
  addrs : List (String × List SocketAddr)
deriving DecidableEq

/-- Nodes::new: both tables empty. -/
def Nodes.new : Nodes :=
  ⟨[], []⟩

/-- Nodes::get_node. -/
def Nodes.get_node (s : Nodes) (a : SocketAddr) : Option Node :=
  mapLookup s.map a

/-- Nodes::get_secret. -/
def Nodes.get_secret (s : Nodes) (a : SocketAddr) : Option (List Nat) :=
  (mapLookup s.map a).map Node.get_secret

/-- Nodes::get_addrs: the address set stored under the username, empty when
absent. -/
def Nodes.get_addrs (s : Nodes) (u : String) : List SocketAddr :=
  (addrsLookup s.addrs u).getD []

/-- Nodes::insert: build a fresh node, overwrite the map entry at the address,
and add the address to the set under the new username. Returns the new state
and the secret reference. -/
def Nodes.insert (s : Nodes) (mark : Nat) (addr : SocketAddr) (username : String)
    (secret : List Nat) (password : String) (now : Nat) : Nodes × Option (List Nat) :=
  let node := Node.new mark username secret password now
  (⟨mapInsert s.map addr node, addrsInsert s.addrs username addr⟩, some node.get_secret)

/-- Nodes::push_port: mutate the node at the address when present. -/
def Nodes.push_port (s : Nodes) (a : SocketAddr) (port : Nat) : Nodes × Option Unit :=
  match mapLookup s.map a with
  | none => (s, none)
  | some n => (⟨mapInsert s.map a (n.push_port port), s.addrs⟩, some ())

/-- Nodes::push_channel: mutate the node at the address when present. -/
def Nodes.push_channel (s : Nodes) (a : SocketAddr) (channel : Nat) : Nodes × Option Unit :=
  match mapLookup s.map a with
  | none => (s, none)
  | some n => (⟨mapInsert s.map a (n.push_channel channel), s.addrs⟩, some ())

/-- Nodes::set_lifetime: mutate the node at the address when present. -/
def Nodes.set_lifetime (s : Nodes) (a : SocketAddr) (delay : Nat) (now : Nat) : Nodes × Option Unit :=
  match mapLookup s.map a with
  | none => (s, none)
  | some n => (⟨mapInsert s.map a (n.set_lifetime delay now), s.addrs⟩, some ())

/-- Nodes::remove: take the node out of the map (an early return after this
point leaves the map already modified, as in the source), then prune the
username index: when the set under the username has exactly one element the
whole entry is removed, otherwise the address is erased from the set. -/
def Nodes.remove (s : Nodes) (a : SocketAddr) : Nodes × Option Node :=
  match mapLookup s.map a with
  | none => (s, none)
  | some node =>
    let m := mapRemove s.map a
    match addrsLookup s.addrs node.username with
    | none => (⟨m, s.addrs⟩, none)
    | some aset =>
      if aset.length = 1 then
        (⟨m, addrsRemoveEntry s.addrs node.username⟩, some node)
      else
        (⟨m, addrsSetValue s.addrs node.username (aset.erase a)⟩, some node)

/-- Nodes::get_deaths: the addresses of the map entries whose node is dead. -/
def Nodes.get_deaths (s : Nodes) (now : Nat) : List SocketAddr :=
  (s.map.filter (fun kv => kv.2.is_death now)).map (fun kv => kv.1)

/-- Modelled from the spec: a proxy fabric node view entry. The defining
struct lives in the rpc module of turn-proxy, which is not under src/; the
spec gives its serialized shape as index (u8), external socket address and
online flag, and lib.rs reads exactly these three fields. -/
structure ProxyStateNotifyNode where
  index : Nat
  external : SocketAddr
  online : Bool
deriving DecidableEq

/-- Proxy fabric payload variants used by lib.rs: the state notification
carrying the full node list, and the cross-server create permission order. -/
inductive Payload where
  | ProxyStateNotify (nodes : List ProxyStateNotifyNode)
  | CreatePermission (id : Nat) (fromAddr : SocketAddr) (peer : SocketAddr)
deriving DecidableEq

/-- Which rpc send discipline was used: Rpc::send or Rpc::send_with_order. -/
inductive SendKind where
  | unordered
  | ordered
deriving DecidableEq

/-- One message handed to the rpc layer: the discipline, the payload and the
destination node index. -/
structure Sent where
  kind : SendKind
  payload : Payload
  dest : Nat
deriving DecidableEq

/-- Proxy::in_online_nodes: find the first view entry whose external IP equals
the address and return its online flag; false when no entry matches. -/
def Proxy.in_online_nodes (nodes : List ProxyStateNotifyNode) (addr : Nat) : Bool :=
  match nodes.find? (fun n => n.external.ip == addr) with
  | some node => node.online
  | none => false

/-- Proxy::create_permission: find the first view entry whose external IP
equals the peer IP; when absent fail with an error and send nothing, otherwise
hand an ordered CreatePermission payload carrying that entry index, the
originating address and the peer to the rpc layer, addressed to that index. -/
def Proxy.create_permission (nodes : List ProxyStateNotifyNode)
    (fromAddr : SocketAddr) (peer : SocketAddr) : Except String Sent :=
  match nodes.find? (fun n => n.external.ip == peer.ip) with
  | none => Except.error ("not found node!")
  | some node =>
    Except.ok ⟨SendKind.ordered, Payload.CreatePermission node.index fromAddr peer, node.index⟩

/-- RpcObserverExt::on: a ProxyStateNotify payload replaces the whole nodes
view; a CreatePermission payload leaves the view alone and invokes the host
observer hook with id, from and peer. The result pairs the new view with the
list of observer invocations. -/
def RpcObserverExt.on (nodes : List ProxyStateNotifyNode) (p : Payload) :
    List ProxyStateNotifyNode × List (Nat × SocketAddr × SocketAddr) :=
  match p with
  | Payload.ProxyStateNotify ns => (ns, [])
  | Payload.CreatePermission id fromAddr peer => (nodes, [(id, fromAddr, peer)])

/-- STUN error kinds appearing in the create permission handler. -/
inductive ErrKind where
  | Unauthorized
  | BadRequest
  | Forbidden
deriving DecidableEq

/-- The response built by the create permission handler: reject builds an
error response carrying the error code and the REALM attribute; resolve
builds a success response (integrity-protected, no mandatory attributes). -/
inductive CpResponse where
  | error (e : ErrKind) (realm : String)
  | success
deriving DecidableEq

/-- The processor context environment as far as the create permission handler
reads it: the realm, the server external address, the optional proxy handle
(carried as its nodes view) and the router bind_port outcome. Router::bind_port
is not under src/, so its result is an oracle function from the client address
and peer port; the handler records every call it makes to it. -/
structure Env where
  realm : String
  external : SocketAddr
  proxyView : Option (List ProxyStateNotifyNode)
  bindPort : SocketAddr → Nat → Option Unit

/-- Modelled from the spec: get_online_node, the lookup the processor uses on
the proxy handle (the handle type is not under src/). The spec words: scan the
view for a node whose external ip equals the ip and which is online. -/
def get_online_node (nodes : List ProxyStateNotifyNode) (ip : Nat) :
    Option ProxyStateNotifyNode :=
  nodes.find? (fun n => n.external.ip == ip && n.online)

/-- The three-way outcome of check_addr. -/
inductive Ret where
  | Next
  | Failed
  | Relay
deriving DecidableEq

/-- check_addr from create_permission.rs: Next when the peer IP equals the
server external IP; otherwise Relay when a proxy is configured and holds an
online node with the peer IP, and Failed in every remaining case. -/
def check_addr (env : Env) (peer : SocketAddr) : Ret :=
  if env.external.ip == peer.ip then Ret.Next
  else
    match env.proxyView with
    | some view =>
      match get_online_node view peer.ip with
      | some _ => Ret.Relay
      | none => Ret.Failed
    | none => Ret.Failed

/-- Everything the create permission handler produces: the wire response, the
router bind_port calls it made, the observer create_permission invocations and
the payloads it handed to the proxy fabric. -/
structure CpOutput where
  response : CpResponse
  binds : List (SocketAddr × Nat)
  observed : List (SocketAddr × String × SocketAddr)
  sent : List Sent
deriving DecidableEq

/-- The process function of create_permission.rs. Inputs that arrive from
code outside src/ are parameters: `auth` is the result of verify_message
(username and integrity key when verification succeeds) and `peerAttr` the
XOR-PEER-ADDRESS attribute read from the message. Failed verification maps to
a 401 rejection, a missing peer attribute to a 400 rejection; then the
check_addr outcome either rejects with 403, resolves success directly (Relay),
or binds the peer port via the router, rejecting with 403 when the bind fails
and otherwise notifying the observer and resolving success. The handler hands
nothing to the proxy fabric on any path. -/
def process (env : Env) (clientAddr : SocketAddr)
    (auth : Option (String × List Nat)) (peerAttr : Option SocketAddr) : CpOutput :=
  match auth with
  | none => ⟨CpResponse.error ErrKind.Unauthorized env.realm, [], [], []⟩
  | some (username, _key) =>
    match peerAttr with
    | none => ⟨CpResponse.error ErrKind.BadRequest env.realm, [], [], []⟩
    | some peer =>
      match check_addr env peer with
      | Ret.Failed => ⟨CpResponse.error ErrKind.Forbidden env.realm, [], [], []⟩
      | Ret.Relay => ⟨CpResponse.success, [], [], []⟩
      | Ret.Next =>
        match env.bindPort clientAddr peer.port with
        | none =>
          ⟨CpResponse.error ErrKind.Forbidden env.realm, [(clientAddr, peer.port)], [], []⟩
        | some _ =>
          ⟨CpResponse.success, [(clientAddr, peer.port)],
            [(clientAddr, username, peer)], []⟩

/-- Helper: looking up the key just inserted returns the inserted node. -/
theorem mapLookup_mapInsert_self (m : List (SocketAddr × Node)) (a : SocketAddr) (n : Node) :
    mapLookup (mapInsert m a n) a = some n := by
  induction m with
  | nil => simp [mapInsert, mapLookup]
  | cons kv rest ih =>
    obtain ⟨k, v⟩ := kv
    by_cases h : k = a
    · simp [mapInsert, h, mapLookup]
    · simp [mapInsert, h, mapLookup, ih]

/-- Helper: with duplicate-free keys, an address survives filtering the node
map exactly when its first-match lookup satisfies the filter. -/
theorem mem_filter_keys_iff (m : List (SocketAddr × Node)) (q : Node → Bool) (a : SocketAddr)
    (hk : (m.map Prod.fst).Nodup) :
    a ∈ (m.filter (fun kv => q kv.2)).map (fun kv => kv.1) ↔
      ∃ n, mapLookup m a = some n ∧ q n = true := by
  induction m with
  | nil => simp [mapLookup]
  | cons kv rest ih =>
    obtain ⟨k, v⟩ := kv
    rw [List.map_cons, List.nodup_cons] at hk
    by_cases hka : k = a
    · subst hka
      by_cases hv : q v = true
      · simp [List.filter_cons, hv, mapLookup]
      · have hnot : k ∉ (rest.filter (fun kv => q kv.2)).map (fun kv => kv.1) := by
          intro hmem
          rcases List.mem_map.1 hmem with ⟨kv', hkv', hfst⟩
          exact hk.1 (List.mem_map.2 ⟨kv', List.mem_of_mem_filter hkv', hfst⟩)
        simp [List.filter_cons, hv, mapLookup, hnot]
    · have hak : ¬a = k := fun h => hka h.symm
      by_cases hv : q v = true
      · simp [List.filter_cons, hv, mapLookup, hka, hak, ih hk.2]
      · simp [List.filter_cons, hv, mapLookup, hka, ih hk.2]

/-- C7: inserting a node and then getting it back returns a node with the same
mark, username, secret and password, empty port and channel lists and lifetime
600, over every prior state, an existing node at the address included. -/
theorem insert_then_get (s : Nodes) (mark : Nat) (addr : SocketAddr)
    (username : String) (secret : List Nat) (password : String) (now : Nat) :
    ((s.insert mark addr username secret password now).1).get_node addr =
      some ⟨mark, [], [], now, 600, secret, username, password⟩ := by
  simp [Nodes.insert, Nodes.get_node, Node.new, mapLookup_mapInsert_self]

/-- C8: when a node is present at the address, set_lifetime stores the given
seconds as its lifetime and resets its timer to the current instant, and right
afterwards the node is dead exactly when the seconds are zero. -/
theorem set_lifetime_spec (s : Nodes) (a : SocketAddr) (delay now : Nat)
    (n : Node) (h : s.get_node a = some n) :
    ∃ m, ((s.set_lifetime a delay now).1).get_node a = some m ∧
      m.timer = now ∧ m.lifetime = delay ∧ (m.is_death now = true ↔ delay = 0) := by
  refine ⟨n.set_lifetime delay now, ?_, rfl, rfl, ?_⟩
  · have h' : mapLookup s.map a = some n := h
    simp [Nodes.set_lifetime, h', Nodes.get_node, mapLookup_mapInsert_self]
  · simp [Node.is_death, Node.set_lifetime, Nat.le_zero]

/-- Witness for set_lifetime_spec: a freshly inserted node, lifetime reset to
zero at instant 9. -/
theorem set_lifetime_spec_witness :
    ∃ m, ((((Nodes.new.insert 0 ⟨1, 8080⟩ ("alice") [] ("pw") 5).1).set_lifetime
        ⟨1, 8080⟩ 0 9).1).get_node ⟨1, 8080⟩ = some m ∧
      m.timer = 9 ∧ m.lifetime = 0 ∧ (m.is_death 9 = true ↔ 0 = 0) :=
  set_lifetime_spec (Nodes.new.insert 0 ⟨1, 8080⟩ ("alice") [] ("pw") 5).1 ⟨1, 8080⟩ 0 9
    ⟨0, [], [], 5, 600, [], "alice", "pw"⟩ rfl

/-- C6: a node is dead exactly when the elapsed seconds since its timer reach
its lifetime, lifetime zero means dead at once, and over a table with
duplicate-free keys (as the hash map guarantees) get_deaths holds exactly the
addresses whose node is dead at the observation instant. -/
theorem death_and_get_deaths_spec (s : Nodes) (now : Nat) (n : Node) (a : SocketAddr)
    (hk : (s.map.map Prod.fst).Nodup) :
    (n.is_death now = true ↔ n.lifetime ≤ now - n.timer) ∧
    (n.lifetime = 0 → n.is_death now = true) ∧
    (a ∈ s.get_deaths now ↔ ∃ m, s.get_node a = some m ∧ m.is_death now = true) := by
  refine ⟨by simp [Node.is_death], ?_, ?_⟩
  · intro h
    simp [Node.is_death, h]
  · exact mem_filter_keys_iff s.map (fun n => n.is_death now) a hk

/-- Witness for death_and_get_deaths_spec: one node inserted at instant 0 and
observed at instant 700, past its default lifetime of 600. -/
theorem death_and_get_deaths_spec_witness :
    ((Node.new 0 ("u") [] ("p") 0).is_death 700 = true ↔
      (Node.new 0 ("u") [] ("p") 0).lifetime ≤ 700 - (Node.new 0 ("u") [] ("p") 0).timer) ∧
    ((Node.new 0 ("u") [] ("p") 0).lifetime = 0 → (Node.new 0 ("u") [] ("p") 0).is_death 700 = true) ∧
    (⟨1, 1⟩ ∈ ((Nodes.new.insert 0 ⟨1, 1⟩ ("u") [] ("p") 0).1).get_deaths 700 ↔
      ∃ m, ((Nodes.new.insert 0 ⟨1, 1⟩ ("u") [] ("p") 0).1).get_node ⟨1, 1⟩ = some m ∧
        m.is_death 700 = true) :=
  death_and_get_deaths_spec _ 700 (Node.new 0 ("u") [] ("p") 0) ⟨1, 1⟩ (by decide)

/-- C3: evaluating the code at the failing input. Inserting at one address
first under username alice and then under username bob leaves the address in
the alice entry of the username index while the node at the address carries
username bob, so the index no longer equals the set of addresses whose node
carries that username. -/
theorem insert_overwrite_stale_addrs_index :
    ((((Nodes.new.insert 0 ⟨1, 8080⟩ ("alice") [] ("pa") 0).1).insert
        0 ⟨1, 8080⟩ ("bob") [] ("pb") 0).1).get_addrs ("alice") = [⟨1, 8080⟩] ∧
    (((((Nodes.new.insert 0 ⟨1, 8080⟩ ("alice") [] ("pa") 0).1).insert
        0 ⟨1, 8080⟩ ("bob") [] ("pb") 0).1).get_node ⟨1, 8080⟩).map Node.username =
      some ("bob") := by
  exact ⟨rfl, rfl⟩

/-- A sequence of push operations on one node: Sum.inl pushes a port,
Sum.inr pushes a channel. -/
def applyPushes (n : Node) : List (Sum Nat Nat) → Node
  | [] => n
  | Sum.inl p :: rest => applyPushes (n.push_port p) rest
  | Sum.inr c :: rest => applyPushes (n.push_channel c) rest

/-- Helper: push_port keeps the port list duplicate-free. -/
theorem push_port_nodup (n : Node) (p : Nat) (h : n.ports.Nodup) :
    (n.push_port p).ports.Nodup := by
  unfold Node.push_port
  by_cases hp : p ∈ n.ports
  · simpa [hp]
  · simp only [hp, if_false]
    rw [List.nodup_append_comm]
    simpa [List.nodup_cons, hp]

/-- Helper: push_channel keeps the channel list duplicate-free. -/
theorem push_channel_nodup (n : Node) (c : Nat) (h : n.channels.Nodup) :
    (n.push_channel c).channels.Nodup := by
  unfold Node.push_channel
  by_cases hc : c ∈ n.channels
  · simpa [hc]
  · simp only [hc, if_false]
    rw [List.nodup_append_comm]
    simpa [List.nodup_cons, hc]

/-- Helper: push_port leaves the channel list alone. -/
theorem push_port_channels (n : Node) (p : Nat) :
    (n.push_port p).channels = n.channels := by
  unfold Node.push_port
  by_cases hp : p ∈ n.ports <;> simp [hp]

/-- Helper: push_channel leaves the port list alone. -/
theorem push_channel_ports (n : Node) (c : Nat) :
    (n.push_channel c).ports = n.ports := by
  unfold Node.push_channel
  by_cases hc : c ∈ n.channels <;> simp [hc]

/-- Helper: a push sequence started on duplicate-free lists keeps both lists
duplicate-free. -/
theorem applyPushes_nodup (ops : List (Sum Nat Nat)) (n : Node)
    (hp : n.ports.Nodup) (hc : n.channels.Nodup) :
    (applyPushes n ops).ports.Nodup ∧ (applyPushes n ops).channels.Nodup := by
  induction ops generalizing n with
  | nil => exact ⟨hp, hc⟩
  | cons op rest ih =>
    cases op with
    | inl p =>
      exact ih (n.push_port p) (push_port_nodup n p hp)
        (by rw [push_port_channels]; exact hc)
    | inr c =>
      exact ih (n.push_channel c) (by rw [push_channel_ports]; exact hp)
        (push_channel_nodup n c hc)

/-- C9: push_port and push_channel are idempotent inserts, and on a node built
by Node::new every sequence of pushes leaves the port list and the channel
list free of duplicates. -/
theorem push_idempotent_and_nodup (n : Node) (p c : Nat) (mark : Nat)
    (username : String) (secret : List Nat) (password : String) (now : Nat)
    (ops : List (Sum Nat Nat)) :
    (p ∈ n.ports → n.push_port p = n) ∧
    (c ∈ n.channels → n.push_channel c = n) ∧
    (applyPushes (Node.new mark username secret password now) ops).ports.Nodup ∧
    (applyPushes (Node.new mark username secret password now) ops).channels.Nodup := by
  refine ⟨fun h => by simp [Node.push_port, h], fun h => by simp [Node.push_channel, h], ?_, ?_⟩
  · exact (applyPushes_nodup ops _ (by simp [Node.new]) (by simp [Node.new])).1
  · exact (applyPushes_nodup ops _ (by simp [Node.new]) (by simp [Node.new])).2

/-- Witness for push_idempotent_and_nodup: repeated pushes on a concrete node,
idempotence conclusions discharged at the concrete inputs. -/
theorem push_idempotent_and_nodup_witness :
    (Node.mk 0 [7] [3] 0 600 [] ("u") ("p")).push_port 3 = Node.mk 0 [7] [3] 0 600 [] ("u") ("p") ∧
    (Node.mk 0 [7] [3] 0 600 [] ("u") ("p")).push_channel 7 = Node.mk 0 [7] [3] 0 600 [] ("u") ("p") ∧
    (applyPushes (Node.new 0 ("u") [] ("p") 0) [Sum.inl 1, Sum.inl 1, Sum.inr 2]).ports.Nodup ∧
    (applyPushes (Node.new 0 ("u") [] ("p") 0) [Sum.inl 1, Sum.inl 1, Sum.inr 2]).channels.Nodup :=
  ⟨(push_idempotent_and_nodup (Node.mk 0 [7] [3] 0 600 [] ("u") ("p")) 3 7 0 ("u") [] ("p") 0
      [Sum.inl 1, Sum.inl 1, Sum.inr 2]).1 (by simp),
    (push_idempotent_and_nodup (Node.mk 0 [7] [3] 0 600 [] ("u") ("p")) 3 7 0 ("u") [] ("p") 0
      [Sum.inl 1, Sum.inl 1, Sum.inr 2]).2.1 (by simp),
    (push_idempotent_and_nodup (Node.mk 0 [7] [3] 0 600 [] ("u") ("p")) 3 7 0 ("u") [] ("p") 0
      [Sum.inl 1, Sum.inl 1, Sum.inr 2]).2.2.1,
    (push_idempotent_and_nodup (Node.mk 0 [7] [3] 0 600 [] ("u") ("p")) 3 7 0 ("u") [] ("p") 0
      [Sum.inl 1, Sum.inl 1, Sum.inr 2]).2.2.2⟩

/-- Helper: find? returns exactly the head of the unique split whose prefix
everywhere fails the predicate and whose head satisfies it. -/
theorem find?_eq_some_split {α : Type} (q : α → Bool) (l : List α) (x : α) :
    l.find? q = some x ↔
      ∃ l₁ l₂, l = l₁ ++ x :: l₂ ∧ (∀ y ∈ l₁, q y = false) ∧ q x = true := by
  induction l with
  | nil => simp
  | cons a rest ih =>
    by_cases ha : q a = true
    · rw [List.find?_cons_of_pos _ ha]
      constructor
      · intro h
        obtain rfl : a = x := by injection h
        exact ⟨[], rest, rfl, by simp, ha⟩
      · rintro ⟨l₁, l₂, heq, hall, hx⟩
        cases l₁ with
        | nil =>
          injection heq with h1 h2
          rw [h1]
        | cons b l₁ =>
          injection heq with h1 h2
          have hb : q b = false := hall b (by simp)
          rw [← h1, ha] at hb
          cases hb
    · have ha' : ¬q a = true := ha
      rw [List.find?_cons_of_neg _ ha']
      rw [ih]
      constructor
      · rintro ⟨l₁, l₂, rfl, hall, hx⟩
        refine ⟨a :: l₁, l₂, rfl, ?_, hx⟩
        intro y hy
        rcases List.mem_cons.1 hy with rfl | hy'
        · exact Bool.eq_false_iff.2 ha
        · exact hall y hy'
      · rintro ⟨l₁, l₂, heq, hall, hx⟩
        cases l₁ with
        | nil =>
          injection heq with h1 h2
          rw [← h1] at hx
          exact absurd hx ha
        | cons b l₁ =>
          injection heq with h1 h2
          exact ⟨l₁, l₂, h2, fun y hy => hall y (List.mem_cons_of_mem b hy), hx⟩

/-- C5 counterexample: a view holding two nodes with the same external IP, the
first offline and the second online. The view contains an online node carrying
the looked-up IP, yet in_online_nodes reports false, so the lookup is not the
claimed containment test. -/
theorem in_online_nodes_counterexample :
    Proxy.in_online_nodes [⟨1, ⟨5, 1⟩, false⟩, ⟨2, ⟨5, 2⟩, true⟩] 5 = false ∧
    ∃ n ∈ ([⟨1, ⟨5, 1⟩, false⟩, ⟨2, ⟨5, 2⟩, true⟩] : List ProxyStateNotifyNode),
      n.external.ip = 5 ∧ n.online = true := by
  decide

/-- C5 amended: receiving ProxyStateNotify replaces the nodes view with the
payload list, whatever the previous view was, and invokes no observer hook;
the lookup afterwards reports true exactly when the view splits into a prefix
of nodes with other external IPs followed by a node that carries the looked-up
IP and is online (that is, the first node carrying the IP is online). -/
theorem proxy_state_replace_and_lookup (old ns : List ProxyStateNotifyNode) (ip : Nat) :
    RpcObserverExt.on old (Payload.ProxyStateNotify ns) = (ns, []) ∧
    (Proxy.in_online_nodes ns ip = true ↔
      ∃ l₁ n l₂, ns = l₁ ++ n :: l₂ ∧ (∀ m ∈ l₁, m.external.ip ≠ ip) ∧
        n.external.ip = ip ∧ n.online = true) := by
  refine ⟨rfl, ?_⟩
  unfold Proxy.in_online_nodes
  constructor
  · intro h
    rcases hfind : ns.find? (fun n => n.external.ip == ip) with _ | node
    · rw [hfind] at h
      cases h
    · rw [hfind] at h
      rcases (find?_eq_some_split _ ns node).1 hfind with ⟨l₁, l₂, heq, hall, hx⟩
      refine ⟨l₁, node, l₂, heq, ?_, by simpa using hx, h⟩
      intro m hm
      simpa using hall m hm
  · rintro ⟨l₁, n, l₂, rfl, hall, hip, hon⟩
    have hfind : (l₁ ++ n :: l₂).find? (fun m => m.external.ip == ip) = some n := by
      refine (find?_eq_some_split _ _ n).2 ⟨l₁, l₂, rfl, ?_, by simpa using hip⟩
      intro y hy
      simpa using hall y hy
    rw [hfind]
    exact hon

/-- Witness for proxy_state_replace_and_lookup at a concrete view: the second
node carries IP 5 and is online, the first carries IP 4. -/
theorem proxy_state_replace_and_lookup_witness :
    RpcObserverExt.on [⟨9, ⟨8, 1⟩, true⟩]
        (Payload.ProxyStateNotify [⟨1, ⟨4, 1⟩, false⟩, ⟨2, ⟨5, 2⟩, true⟩]) =
      ([⟨1, ⟨4, 1⟩, false⟩, ⟨2, ⟨5, 2⟩, true⟩], []) ∧
    (Proxy.in_online_nodes [⟨1, ⟨4, 1⟩, false⟩, ⟨2, ⟨5, 2⟩, true⟩] 5 = true ↔
      ∃ l₁ n l₂, ([⟨1, ⟨4, 1⟩, false⟩, ⟨2, ⟨5, 2⟩, true⟩] : List ProxyStateNotifyNode) =
          l₁ ++ n :: l₂ ∧ (∀ m ∈ l₁, m.external.ip ≠ 5) ∧
        n.external.ip = 5 ∧ n.online = true) :=
  proxy_state_replace_and_lookup [⟨9, ⟨8, 1⟩, true⟩]
    [⟨1, ⟨4, 1⟩, false⟩, ⟨2, ⟨5, 2⟩, true⟩] 5

/-- C10: Proxy::create_permission selects its destination by external IP alone,
online flag ignored: when the view splits into a prefix of nodes with other
external IPs followed by a node carrying the peer IP, the call hands the rpc
layer one ordered CreatePermission payload built from that node index, the
source address and the peer, addressed to that index, and returns Ok; when no
node in the view carries the peer IP it returns the error and sends nothing. -/
theorem proxy_create_permission_spec (view : List ProxyStateNotifyNode)
    (fromAddr peer : SocketAddr) :
    (∀ l₁ n l₂, view = l₁ ++ n :: l₂ → (∀ m ∈ l₁, m.external.ip ≠ peer.ip) →
      n.external.ip = peer.ip →
      Proxy.create_permission view fromAddr peer =
        Except.ok ⟨SendKind.ordered, Payload.CreatePermission n.index fromAddr peer, n.index⟩) ∧
    ((∀ m ∈ view, m.external.ip ≠ peer.ip) →
      Proxy.create_permission view fromAddr peer = Except.error ("not found node!")) := by
  constructor
  · intro l₁ n l₂ heq hall hip
    have hfind : view.find? (fun m => m.external.ip == peer.ip) = some n := by
      refine (find?_eq_some_split _ view n).2 ⟨l₁, l₂, heq, ?_, by simpa using hip⟩
      intro y hy
      simpa using hall y hy
    unfold Proxy.create_permission
    rw [hfind]
  · intro hall
    have hfind : view.find? (fun m => m.external.ip == peer.ip) = none := by
      rw [List.find?_eq_none]
      intro m hm
      simpa using hall m hm
    unfold Proxy.create_permission
    rw [hfind]

/-- Witness for proxy_create_permission_spec: the single view node is offline
yet carries the peer IP, and the payload is still sent to its index. -/
theorem proxy_create_permission_spec_witness :
    Proxy.create_permission [⟨9, ⟨4, 1⟩, false⟩] ⟨10, 5000⟩ ⟨4, 7⟩ =
      Except.ok ⟨SendKind.ordered, Payload.CreatePermission 9 ⟨10, 5000⟩ ⟨4, 7⟩, 9⟩ :=
  (proxy_create_permission_spec [⟨9, ⟨4, 1⟩, false⟩] ⟨10, 5000⟩ ⟨4, 7⟩).1
    [] ⟨9, ⟨4, 1⟩, false⟩ [] rfl (by simp) rfl

/-- C1: the decision table of the authenticated create permission handler for
the peer address it carries. With verified credentials and a peer attribute
present: when the peer IP equals the server external IP the handler calls the
router bind once with the client address and the peer port, replying success
when the bind succeeds and 403 Forbidden when it fails; when the IPs differ
and a proxy is configured whose view holds an online node carrying the peer
IP, it replies success with no router call; in every remaining case it replies
403 Forbidden. -/
theorem create_permission_decision_table (env : Env) (clientAddr : SocketAddr)
    (username : String) (key : List Nat) (peer : SocketAddr) :
    (env.external.ip = peer.ip → (env.bindPort clientAddr peer.port).isSome →
      process env clientAddr (some (username, key)) (some peer) =
        ⟨CpResponse.success, [(clientAddr, peer.port)], [(clientAddr, username, peer)], []⟩) ∧
    (env.external.ip = peer.ip → env.bindPort clientAddr peer.port = none →
      process env clientAddr (some (username, key)) (some peer) =
        ⟨CpResponse.error ErrKind.Forbidden env.realm, [(clientAddr, peer.port)], [], []⟩) ∧
    (env.external.ip ≠ peer.ip → ∀ view, env.proxyView = some view →
      (∃ n ∈ view, n.external.ip = peer.ip ∧ n.online = true) →
      process env clientAddr (some (username, key)) (some peer) =
        ⟨CpResponse.success, [], [], []⟩) ∧
    (env.external.ip ≠ peer.ip →
      (∀ view, env.proxyView = some view →
        ∀ n ∈ view, ¬(n.external.ip = peer.ip ∧ n.online = true)) →
      process env clientAddr (some (username, key)) (some peer) =
        ⟨CpResponse.error ErrKind.Forbidden env.realm, [], [], []⟩) := by
  refine ⟨?_, ?_, ?_, ?_⟩
  · intro hip hbind
    rcases Option.isSome_iff_exists.1 hbind with ⟨u, hu⟩
    simp [process, check_addr, hip, hu]
  · intro hip hbind
    simp [process, check_addr, hip, hbind]
  · intro hip view hview hex
    have hfind : (get_online_node view peer.ip).isSome := by
      unfold get_online_node
      rw [List.find?_isSome]
      rcases hex with ⟨n, hn, hip', hon⟩
      exact ⟨n, hn, by simp [hip', hon]⟩
    rcases Option.isSome_iff_exists.1 hfind with ⟨n, hn⟩
    simp [process, check_addr, beq_iff_eq, hip, hview, hn]
  · intro hip hnone
    unfold process check_addr
    rcases hview : env.proxyView with _ | view
    · simp [beq_iff_eq, hip]
    · have hfind : get_online_node view peer.ip = none := by
        unfold get_online_node
        rw [List.find?_eq_none]
        intro n hn
        have hcon := hnone view hview n hn
        intro h
        rw [Bool.and_eq_true, beq_iff_eq] at h
        exact hcon ⟨h.1, h.2⟩
      simp [beq_iff_eq, hip, hfind]

/-- Witness for create_permission_decision_table: the cross-server case at a
concrete environment, with the relay conclusion discharged there. -/
theorem create_permission_decision_table_witness :
    process ⟨("realm"), ⟨203, 3478⟩, some [⟨7, ⟨99, 3478⟩, true⟩], fun _ _ => none⟩
        ⟨10, 5000⟩ (some (("alice"), [])) (some ⟨99, 7000⟩) =
      ⟨CpResponse.success, [], [], []⟩ :=
  (create_permission_decision_table
      ⟨("realm"), ⟨203, 3478⟩, some [⟨7, ⟨99, 3478⟩, true⟩], fun _ _ => none⟩
      ⟨10, 5000⟩ ("alice") [] ⟨99, 7000⟩).2.2.1 (by decide) [⟨7, ⟨99, 3478⟩, true⟩] rfl
    ⟨⟨7, ⟨99, 3478⟩, true⟩, by simp, rfl, rfl⟩

/-- C2: evaluating the handler at the cross-server input of the spec scenario.
The peer IP 99 matches the online remote node with index 7 held by the
configured proxy, the handler replies success and makes no router call, yet it
hands no payload whatsoever to the proxy fabric. -/
theorem relay_branch_sends_nothing :
    (process ⟨("realm"), ⟨203, 3478⟩, some [⟨7, ⟨99, 3478⟩, true⟩], fun _ _ => some ()⟩
        ⟨10, 5000⟩ (some (("alice"), [])) (some ⟨99, 7000⟩)).response = CpResponse.success ∧
    (process ⟨("realm"), ⟨203, 3478⟩, some [⟨7, ⟨99, 3478⟩, true⟩], fun _ _ => some ()⟩
        ⟨10, 5000⟩ (some (("alice"), [])) (some ⟨99, 7000⟩)).sent = [] ∧
    (process ⟨("realm"), ⟨203, 3478⟩, some [⟨7, ⟨99, 3478⟩, true⟩], fun _ _ => some ()⟩
        ⟨10, 5000⟩ (some (("alice"), [])) (some ⟨99, 7000⟩)).binds = [] :=
  ⟨rfl, rfl, rfl⟩

/-- C4: failed message integrity verification yields a 401 Unauthorized
response carrying the realm, and verified credentials without a peer address
attribute yield a 400 Bad Request response carrying the realm; on both error
paths the handler makes no router call, no observer call and no fabric send. -/
theorem error_responses_spec (env : Env) (clientAddr : SocketAddr)
    (auth : Option (String × List Nat)) (peerAttr : Option SocketAddr) :
    (auth = none →
      process env clientAddr auth peerAttr =
        ⟨CpResponse.error ErrKind.Unauthorized env.realm, [], [], []⟩) ∧
    (auth.isSome = true → peerAttr = none →
      process env clientAddr auth peerAttr =
        ⟨CpResponse.error ErrKind.BadRequest env.realm, [], [], []⟩) := by
  constructor
  · rintro rfl
    rfl
  · intro hs
    rintro rfl
    rcases Option.isSome_iff_exists.1 hs with ⟨⟨u, k⟩, rfl⟩
    rfl

/-- Witness for error_responses_spec: both error paths at concrete inputs. -/
theorem error_responses_spec_witness :
    process ⟨("realm"), ⟨1, 1⟩, none, fun _ _ => none⟩ ⟨2, 2⟩ none (some ⟨3, 3⟩) =
      ⟨CpResponse.error ErrKind.Unauthorized ("realm"), [], [], []⟩ ∧
    process ⟨("realm"), ⟨1, 1⟩, none, fun _ _ => none⟩ ⟨2, 2⟩ (some (("u"), [])) none =
      ⟨CpResponse.error ErrKind.BadRequest ("realm"), [], [], []⟩ :=
  ⟨(error_responses_spec ⟨("realm"), ⟨1, 1⟩, none, fun _ _ => none⟩ ⟨2, 2⟩ none
      (some ⟨3, 3⟩)).1 rfl,
    (error_responses_spec ⟨("realm"), ⟨1, 1⟩, none, fun _ _ => none⟩ ⟨2, 2⟩
      (some (("u"), [])) none).2 rfl rfl⟩

end Mystical
